import Mathlib

/-!
Shallow embedding of the meeting-hub backend (FastAPI + SQLAlchemy service in
`backend/routers/{bots,webhooks,transcripts,admin}.py`).

Modelling conventions:
* The relational store is a `DB` record of row lists.  SQLAlchemy sessions
  stage changes and apply them atomically at `commit()`; each handler is a pure
  function of the committed pre-state, the outcomes of its upstream
  (`VexaClient`) calls, and a success flag per `commit()` call it performs.
  A failed commit leaves the committed state unchanged (rollback), and the
  unhandled/handled exception is reflected in the handler's result value.
* Upstream calls are passed in as `Except String _` outcomes and every call
  actually issued is recorded in the returned trace (`List InfraCall`), so
  "makes no upstream call" is the trace being `[]`.
* Meeting `data` (a JSONB dict used only at the keys `is_live`,
  `transcript_cached`, `infra_meeting_id`) is a record of optional fields;
  the column is nullable, hence `Option MeetingData` on the row.
* `start_time`/`end_time` are SQL floats only compared/ordered, modelled as ℚ.
-/

namespace MeetingHub

/-- Attribute bag stored in `Meeting.data` (JSONB).  Only these keys are ever
read or written by the code under verification. -/
structure MeetingData where
  is_live : Option Bool
  transcript_cached : Option Bool
  infra_meeting_id : Option Nat
deriving Repr, DecidableEq

/-- A `meetings` row (`core.models.Meeting`): id, platform tag,
platform-specific external id, lifecycle status, attribute bag. -/
structure Meeting where
  id : Nat
  platform : String
  platform_specific_id : String
  status : String
  data : Option MeetingData
deriving Repr, DecidableEq

/-- A `user_meetings` linkage row (`core.models.UserMeeting`). -/
structure UserMeeting where
  user_id : Nat
  meeting_id : Nat
deriving Repr, DecidableEq

/-- A stored transcript segment row (`core.models.Transcription`). -/
structure Transcription where
  meeting_id : Nat
  start_time : ℚ
  end_time : ℚ
  text : String
  speaker : Option String
  language : Option String
deriving Repr, DecidableEq

/-- An `api_tokens` row (`core.models.APIToken`). -/
structure APIToken where
  id : Nat
  token : String
  user_id : Nat
deriving Repr, DecidableEq

/-- Committed database state: one list of rows per table.  Users are only
needed as foreign-key targets here, so they are kept as their ids. -/
structure DB where
  users : List Nat
  meetings : List Meeting
  links : List UserMeeting
  segments : List Transcription
  tokens : List APIToken
deriving Repr, DecidableEq

/-- A segment as returned by the upstream `get_transcript` call
(`{start_time, end_time, text, speaker?, language?}`). -/
structure SegmentIn where
  start_time : ℚ
  end_time : ℚ
  text : String
  speaker : Option String
  language : Option String
deriving Repr, DecidableEq

/-- Trace entry for one call issued to the upstream `VexaClient`. -/
inductive InfraCall
  | requestBotCall (platform nid : String)
  | getTranscriptCall (platform nid : String)
  | deleteMeetingCall (platform nid : String)
deriving Repr, DecidableEq

/-- `select(Meeting).filter(platform == p, platform_specific_id == nid)` then
`.scalars().first()`. -/
def findMeeting (db : DB) (platform nid : String) : Option Meeting :=
  db.meetings.find? fun m => m.platform == platform && m.platform_specific_id == nid

/-- `select(UserMeeting).filter(user_id == uid, meeting_id == mid)` then
`.scalars().first()`. -/
def findLink (db : DB) (uid mid : Nat) : Option UserMeeting :=
  db.links.find? fun l => l.user_id == uid && l.meeting_id == mid

/-- Number of `meetings` rows carrying the natural key `(platform, nid)`. -/
def countKey (db : DB) (platform nid : String) : Nat :=
  (db.meetings.filter fun m => m.platform == platform && m.platform_specific_id == nid).length

/-- Number of linkage rows for the pair `(uid, mid)`. -/
def countLink (db : DB) (uid mid : Nat) : Nat :=
  (db.links.filter fun l => l.user_id == uid && l.meeting_id == mid).length

/-- All stored segments of meeting `mid`, in insertion order. -/
def segmentsFor (db : DB) (mid : Nat) : List Transcription :=
  db.segments.filter fun t => t.meeting_id == mid

/-- Outcome of `POST /bots` (`request_bot` in `routers/bots.py`):
the meeting returned with 201, a 502 on upstream failure, or a 500 when a
commit raises. -/
inductive BotResult
  | ok (m : Meeting)
  | upstreamError (msg : String)
  | serverError
deriving Repr, DecidableEq

/-- The `Meeting(...)` row built in the creation path of `request_bot`:
status `"active"`, `data = {"is_live": True, "infra_meeting_id": infra_response.get("id")}`. -/
def newMeetingRow (newId : Nat) (platform nid : String) (infraId : Option Nat) : Meeting :=
  { id := newId, platform := platform, platform_specific_id := nid, status := "active",
    data := some { is_live := some true, transcript_cached := none, infra_meeting_id := infraId } }

/-- `request_bot` (`routers/bots.py`).  `infra` is the outcome of the upstream
`request_bot` call (its `{id}` payload), `newId` the id the store assigns to a
freshly inserted meeting, `commit1Ok`/`commit2Ok` whether the first/second
`db.commit()` executed on the taken path succeeds. -/
def request_bot (db : DB) (uid : Nat) (platform nid : String)
    (infra : Except String (Option Nat)) (newId : Nat)
    (commit1Ok commit2Ok : Bool) : DB × BotResult × List InfraCall :=
  match findMeeting db platform nid with
  | some existing_meeting =>
    match findLink db uid existing_meeting.id with
    | some _ => (db, .ok existing_meeting, [])
    | none =>
      if commit1Ok then
        ({ db with links := db.links ++ [{ user_id := uid, meeting_id := existing_meeting.id }] },
          .ok existing_meeting, [])
      else
        (db, .serverError, [])
  | none =>
    match infra with
    | .error e => (db, .upstreamError e, [.requestBotCall platform nid])
    | .ok infraId =>
      let new_meeting := newMeetingRow newId platform nid infraId
      if commit1Ok then
        let db1 := { db with meetings := db.meetings ++ [new_meeting] }
        if commit2Ok then
          ({ db1 with links := db1.links ++ [{ user_id := uid, meeting_id := newId }] },
            .ok new_meeting, [.requestBotCall platform nid])
        else
          (db1, .serverError, [.requestBotCall platform nid])
      else
        (db, .serverError, [.requestBotCall platform nid])

/-- Outcome of `POST /webhooks/meeting-finished` (`handle_webhook`):
success message, 404, 502 (`VexaClientError`), or 500 (other exception). -/
inductive WebhookResult
  | ok
  | notFound
  | infraError (msg : String)
  | serverError
deriving Repr, DecidableEq

/-- The `Transcription(...)` row built from one upstream segment in
`handle_webhook`. -/
def segRow (mid : Nat) (s : SegmentIn) : Transcription :=
  { meeting_id := mid, start_time := s.start_time, end_time := s.end_time,
    text := s.text, speaker := s.speaker, language := s.language }

/-- The attribute-bag update of `handle_webhook`: replace a missing bag by `{}`
then set `is_live = False` and `transcript_cached = True`. -/
def archiveData (d : Option MeetingData) : MeetingData :=
  let base := d.getD { is_live := none, transcript_cached := none, infra_meeting_id := none }
  { base with is_live := some false, transcript_cached := some true }

/-- The state committed by `handle_webhook`'s single `db.commit()`: all
upstream segments inserted for meeting `mid`, and that meeting's bag archived. -/
def applyFinalize (db : DB) (mid : Nat) (segs : List SegmentIn) : DB :=
  { db with
    segments := db.segments ++ segs.map (segRow mid),
    meetings := db.meetings.map fun m =>
      if m.id = mid then { m with data := some (archiveData m.data) } else m }

/-- `handle_webhook` (`routers/webhooks.py`).  `transcript` is the outcome of
the upstream `get_transcript` call, `commitOk` whether the single
`db.commit()` succeeds, `deleteResult` the outcome of the post-commit
`delete_meeting` call.  Note the `delete_meeting` call sits inside the same
`try` block, so its `VexaClientError` is caught, triggers a (vacuous,
post-commit) rollback and surfaces as a 502. -/
def handle_webhook (db : DB) (platform nid : String)
    (transcript : Except String (List SegmentIn)) (commitOk : Bool)
    (deleteResult : Except String Unit) : DB × WebhookResult × List InfraCall :=
  match findMeeting db platform nid with
  | none => (db, .notFound, [])
  | some meeting =>
    match transcript with
    | .error e => (db, .infraError e, [.getTranscriptCall platform nid])
    | .ok segs =>
      if commitOk then
        let db1 := applyFinalize db meeting.id segs
        match deleteResult with
        | .ok _ =>
          (db1, .ok, [.getTranscriptCall platform nid, .deleteMeetingCall platform nid])
        | .error e =>
          (db1, .infraError e, [.getTranscriptCall platform nid, .deleteMeetingCall platform nid])
      else
        (db, .serverError, [.getTranscriptCall platform nid])

/-- Outcome of `GET /transcripts/{platform}/{native_meeting_id}`
(`get_transcript` in `routers/transcripts.py`). -/
inductive TranscriptResult
  | cached (segs : List Transcription)
  | live (segs : List SegmentIn)
  | notFound
  | infraError (msg : String)
  | serverError
deriving Repr, DecidableEq

/-- The `select(Meeting).join(UserMeeting).filter(key, user)` lookup of
`get_transcript`: first meeting with the natural key that the user is linked
to. -/
def authorizedMeeting (db : DB) (uid : Nat) (platform nid : String) : Option Meeting :=
  db.meetings.find? fun m =>
    m.platform == platform && m.platform_specific_id == nid && (findLink db uid m.id).isSome

/-- `ORDER BY start_time` comparison on stored segments. -/
def byStartTime (a b : Transcription) : Prop :=
  a.start_time ≤ b.start_time

instance : DecidableRel byStartTime :=
  fun a b => decidable_of_iff (a.start_time ≤ b.start_time) Iff.rfl

instance : IsTotal Transcription byStartTime :=
  ⟨fun a b => le_total a.start_time b.start_time⟩

instance : IsTrans Transcription byStartTime :=
  ⟨fun _ _ _ hab hbc => le_trans hab hbc⟩

/-- `get_transcript` (`routers/transcripts.py`).  `liveResult` is the outcome
of the upstream `get_transcript` call which is issued only on the live branch.
A `None` bag makes `meeting.data.get("is_live", False)` raise, surfacing as a
500.  The cached branch re-reads the segments `ORDER BY start_time` and issues
no upstream call. -/
def get_transcript (db : DB) (uid : Nat) (platform nid : String)
    (liveResult : Except String (List SegmentIn)) : TranscriptResult × List InfraCall :=
  match authorizedMeeting db uid platform nid with
  | none => (.notFound, [])
  | some meeting =>
    match meeting.data with
    | none => (.serverError, [])
    | some d =>
      if d.is_live.getD false then
        match liveResult with
        | .ok resp => (.live resp, [.getTranscriptCall platform nid])
        | .error e => (.infraError e, [.getTranscriptCall platform nid])
      else
        (.cached (List.insertionSort byStartTime (segmentsFor db meeting.id)), [])

/-- `string.ascii_letters + string.digits`, the alphabet of
`generate_secure_token` in `routers/admin.py`. -/
def token_alphabet : List Char :=
  "abcdefghijklmnopqrstuvwxyzABCDEFGHIJKLMNOPQRSTUVWXYZ0123456789".toList

/-- `generate_secure_token` (`routers/admin.py`): `length` independent uniform
choices from the alphabet, modelled by an oracle `pick` of random naturals
reduced into the alphabet's range. -/
def generate_secure_token (pick : Nat → Nat) (length : Nat) : String :=
  String.mk ((List.range length).map fun i => token_alphabet.getD (pick i % token_alphabet.length) 'a')

/-- Outcome of `POST /admin/users/{user_id}/tokens` (`create_token_for_user`):
201 with the token, or a raw 500 when the commit raises.  `notFound` is the
404 category the spec prescribes for a missing user; the handler never
produces it. -/
inductive TokenResult
  | created (t : APIToken)
  | notFound
  | serverError
deriving Repr, DecidableEq

/-- `create_token_for_user` (`routers/admin.py`).  The handler unconditionally
builds the row and commits; it has no user-existence check and no exception
handler.  Foreign-key enforcement at commit is modelled from the spec
(`core/models.py`, which declares the schema, is not under src/): "A token's
owning user is a non-null, immutable foreign relationship" — a commit
violating it raises, and the unhandled error surfaces as a raw 500. -/
def create_token_for_user (db : DB) (user_id : Nat) (pick : Nat → Nat) (newId : Nat) :
    DB × TokenResult :=
  let new_token : APIToken :=
    { id := newId, token := generate_secure_token pick 40, user_id := user_id }
  if db.users.contains user_id then
    ({ db with tokens := db.tokens ++ [new_token] }, .created new_token)
  else
    (db, .serverError)

/-! Concrete fixture data used by witnesses and counterexamples. -/

/-- A live meeting as created by the creation path of `request_bot`. -/
def mW : Meeting :=
  { id := 1, platform := "google_meet", platform_specific_id := "abc-123", status := "active",
    data := some { is_live := some true, transcript_cached := none, infra_meeting_id := some 7 } }

/-- An upstream transcript segment. -/
def segW : SegmentIn :=
  { start_time := 5, end_time := 6, text := "hello", speaker := some "alice", language := none }

/-- A second upstream transcript segment with an earlier start offset. -/
def segW2 : SegmentIn :=
  { start_time := 1, end_time := 2, text := "world", speaker := none, language := some "en" }

/-- A database holding user 1, the meeting `mW`, and user 1's link to it. -/
def dbW : DB :=
  { users := [1], meetings := [mW], links := [{ user_id := 1, meeting_id := 1 }],
    segments := [], tokens := [] }

/-- A database holding only user 1 (no meetings, links, segments, tokens). -/
def dbU : DB :=
  { users := [1], meetings := [], links := [], segments := [], tokens := [] }

/-- An oracle of "random" draws for `generate_secure_token`. -/
def pickW : Nat → Nat := fun i => 7 * i + 3

/-- An archived meeting (is_live false, transcript cached). -/
def mA : Meeting :=
  { id := 1, platform := "google_meet", platform_specific_id := "abc-123", status := "active",
    data := some { is_live := some false, transcript_cached := some true,
                   infra_meeting_id := some 7 } }

/-- A stored segment starting at 5.0. -/
def tA : Transcription :=
  { meeting_id := 1, start_time := 5, end_time := 6, text := "hello", speaker := some "alice",
    language := none }

/-- A stored segment starting at 1.0, inserted after `tA`. -/
def tB : Transcription :=
  { meeting_id := 1, start_time := 1, end_time := 2, text := "world", speaker := none,
    language := some "en" }

/-- A database with the archived meeting `mA`, linked to user 1, whose two
segments were inserted in descending start order. -/
def dbA : DB :=
  { users := [1], meetings := [mA], links := [{ user_id := 1, meeting_id := 1 }],
    segments := [tA, tB], tokens := [] }

/-! Helper lemmas shared by several claims. -/

theorem find?_congr_pred {α : Type} {p q : α → Bool} :
    ∀ (l : List α), (∀ a ∈ l, p a = q a) → l.find? p = l.find? q
  | [], _ => rfl
  | a :: l, h => by
    have ha : p a = q a := h a (List.mem_cons_self a l)
    by_cases hpa : p a = true
    · rw [List.find?_cons_of_pos _ hpa, List.find?_cons_of_pos _ (ha ▸ hpa)]
    · have hqa : ¬ q a = true := fun hq => hpa (ha ▸ hq)
      rw [List.find?_cons_of_neg _ hpa, List.find?_cons_of_neg _ hqa]
      exact find?_congr_pred l (fun b hb => h b (List.mem_cons_of_mem a hb))

theorem findMeeting_mem {db : DB} {platform nid : String} {m : Meeting}
    (hm : findMeeting db platform nid = some m) :
    m ∈ db.meetings ∧ m.platform = platform ∧ m.platform_specific_id = nid := by
  refine ⟨List.mem_of_find?_eq_some hm, ?_, ?_⟩
  · have h := List.find?_some hm
    simp only [Bool.and_eq_true, beq_iff_eq] at h
    exact h.1
  · have h := List.find?_some hm
    simp only [Bool.and_eq_true, beq_iff_eq] at h
    exact h.2

/-- Looking up by natural key after `applyFinalize` still finds the meeting,
now carrying the archived attribute bag. -/
theorem findMeeting_applyFinalize {db : DB} {platform nid : String} {m : Meeting}
    (hm : findMeeting db platform nid = some m) (segs : List SegmentIn) :
    findMeeting (applyFinalize db m.id segs) platform nid =
      some { m with data := some (archiveData m.data) } := by
  unfold findMeeting applyFinalize
  rw [List.find?_map]
  have hcongr :
      db.meetings.find? ((fun x => x.platform == platform && x.platform_specific_id == nid) ∘
        fun x => if x.id = m.id then { x with data := some (archiveData x.data) } else x) =
      db.meetings.find? (fun x => x.platform == platform && x.platform_specific_id == nid) := by
    apply find?_congr_pred
    intro a _
    by_cases hid : a.id = m.id <;> simp [hid]
  rw [hcongr]
  unfold findMeeting at hm
  rw [hm]
  simp

theorem countKey_meetings_eq {db db2 : DB} (platform nid : String)
    (h : db2.meetings = db.meetings) : countKey db2 platform nid = countKey db platform nid := by
  unfold countKey
  rw [h]

/-- `countLink = 0` means the pre-check `findLink` comes back empty. -/
theorem findLink_eq_none_of_countLink_zero {db : DB} {u mid : Nat}
    (h : countLink db u mid = 0) : findLink db u mid = none := by
  unfold countLink at h
  unfold findLink
  rw [List.find?_eq_none]
  intro l hl hpl
  have : l ∈ db.links.filter fun l => l.user_id == u && l.meeting_id == mid :=
    List.mem_filter.mpr ⟨hl, hpl⟩
  rw [List.length_eq_zero] at h
  rw [h] at this
  exact absurd this (List.not_mem_nil l)

/-- C1: a finalize (webhook) invocation on a registered meeting is
all-or-nothing on local storage: the post-state either equals the pre-state
(every failure before/at the commit), or has all upstream segments appended,
links untouched, and the meeting's bag archived with `is_live = false` and
`transcript_cached = true`; no partial state is reachable. -/
theorem finalize_atomic (db : DB) (platform nid : String) (m : Meeting)
    (transcript : Except String (List SegmentIn)) (commitOk : Bool)
    (deleteResult : Except String Unit)
    (hm : findMeeting db platform nid = some m) :
    (handle_webhook db platform nid transcript commitOk deleteResult).1 = db ∨
    ∃ segs, transcript = .ok segs ∧
      (handle_webhook db platform nid transcript commitOk deleteResult).1.segments =
        db.segments ++ segs.map (segRow m.id) ∧
      (handle_webhook db platform nid transcript commitOk deleteResult).1.links = db.links ∧
      { m with data := some (archiveData m.data) } ∈
        (handle_webhook db platform nid transcript commitOk deleteResult).1.meetings ∧
      (archiveData m.data).is_live = some false ∧
      (archiveData m.data).transcript_cached = some true := by
  unfold handle_webhook
  rw [hm]
  cases transcript with
  | error e => exact Or.inl rfl
  | ok segs =>
    cases commitOk with
    | false => exact Or.inl rfl
    | true =>
      have hmem : { m with data := some (archiveData m.data) } ∈
          (applyFinalize db m.id segs).meetings := by
        unfold applyFinalize
        have hm' : m ∈ db.meetings := (findMeeting_mem hm).1
        have hmapped := List.mem_map_of_mem
          (fun x => if x.id = m.id then { x with data := some (archiveData x.data) } else x) hm'
        simpa using hmapped
      cases deleteResult with
      | ok u => exact Or.inr ⟨segs, rfl, rfl, rfl, hmem, rfl, rfl⟩
      | error e => exact Or.inr ⟨segs, rfl, rfl, rfl, hmem, rfl, rfl⟩

/-- Witness for C1 at the fixture database: meeting `mW` is registered and the
dichotomy holds on a successful run. -/
theorem finalize_atomic_witness :
    (handle_webhook dbW "google_meet" "abc-123" (.ok [segW]) true (.ok ())).1 = dbW ∨
    ∃ segs, (Except.ok [segW] : Except String (List SegmentIn)) = .ok segs ∧
      (handle_webhook dbW "google_meet" "abc-123" (.ok [segW]) true (.ok ())).1.segments =
        dbW.segments ++ segs.map (segRow mW.id) ∧
      (handle_webhook dbW "google_meet" "abc-123" (.ok [segW]) true (.ok ())).1.links =
        dbW.links ∧
      { mW with data := some (archiveData mW.data) } ∈
        (handle_webhook dbW "google_meet" "abc-123" (.ok [segW]) true (.ok ())).1.meetings ∧
      (archiveData mW.data).is_live = some false ∧
      (archiveData mW.data).transcript_cached = some true :=
  finalize_atomic dbW "google_meet" "abc-123" mW (.ok [segW]) true (.ok ()) (by decide)

/-- C5: when no meeting exists for the natural key and the upstream
provisioning call fails, `request_bot` surfaces the upstream error and creates
nothing locally: the database is returned unchanged and no meeting row for the
key exists afterwards. -/
theorem request_bot_upstream_failure (db : DB) (u : Nat) (platform nid : String) (e : String)
    (newId : Nat) (c1 c2 : Bool)
    (hm : findMeeting db platform nid = none) :
    request_bot db u platform nid (.error e) newId c1 c2 =
      (db, .upstreamError e, [.requestBotCall platform nid]) ∧
    countKey db platform nid = 0 := by
  have hnone := List.find?_eq_none.mp hm
  constructor
  · unfold request_bot
    rw [hm]
  · unfold countKey
    rw [List.length_eq_zero, List.filter_eq_nil_iff]
    intro a ha hpa
    exact hnone a ha hpa

/-- Witness for C5: no meeting for the key in `dbU`, so the failed upstream
call leaves the store untouched. -/
theorem request_bot_upstream_failure_witness :
    request_bot dbU 1 "google_meet" "abc-123" (.error "down") 1 true true =
      (dbU, .upstreamError "down", [.requestBotCall "google_meet" "abc-123"]) ∧
    countKey dbU "google_meet" "abc-123" = 0 :=
  request_bot_upstream_failure dbU 1 "google_meet" "abc-123" "down" 1 true true (by decide)

/-- C10: the creation path of `request_bot` commits the meeting row and the
linkage row in two separate transactions, meeting first; in the execution
where the first commit succeeds and the second fails, a meeting row is
persisted with zero linkage rows referencing it, and the caller gets a 500. -/
theorem request_bot_creation_not_atomic :
    (request_bot dbU 1 "google_meet" "abc-123" (.ok (some 7)) 1 true false).1.meetings =
      [newMeetingRow 1 "google_meet" "abc-123" (some 7)] ∧
    (request_bot dbU 1 "google_meet" "abc-123" (.ok (some 7)) 1 true false).1.links = [] ∧
    (request_bot dbU 1 "google_meet" "abc-123" (.ok (some 7)) 1 true false).2.1 =
      .serverError :=
  ⟨rfl, rfl, rfl⟩

/-- C2: a `request_bot` call on a natural key that already has a meeting row
makes no upstream call, leaves the meeting table unchanged, returns the
existing meeting, links the caller, and preserves both the key's uniqueness
and the original requester's link. -/
theorem request_bot_existing (db : DB) (u0 u1 : Nat) (platform nid : String) (m : Meeting)
    (infra : Except String (Option Nat)) (newId : Nat)
    (hm : findMeeting db platform nid = some m)
    (hcount : countKey db platform nid = 1)
    (h0 : ({ user_id := u0, meeting_id := m.id } : UserMeeting) ∈ db.links) :
    (request_bot db u1 platform nid infra newId true true).2.2 = [] ∧
    (request_bot db u1 platform nid infra newId true true).2.1 = .ok m ∧
    (request_bot db u1 platform nid infra newId true true).1.meetings = db.meetings ∧
    countKey (request_bot db u1 platform nid infra newId true true).1 platform nid = 1 ∧
    ({ user_id := u1, meeting_id := m.id } : UserMeeting) ∈
      (request_bot db u1 platform nid infra newId true true).1.links ∧
    ({ user_id := u0, meeting_id := m.id } : UserMeeting) ∈
      (request_bot db u1 platform nid infra newId true true).1.links := by
  cases hfl : findLink db u1 m.id with
  | some l =>
    have hl : l ∈ db.links := List.mem_of_find?_eq_some hfl
    have hp := List.find?_some hfl
    simp only [Bool.and_eq_true, beq_iff_eq] at hp
    have hleq : l = { user_id := u1, meeting_id := m.id } := by
      obtain ⟨hu, hmid⟩ := hp
      cases l
      simp_all
    have heq : request_bot db u1 platform nid infra newId true true = (db, .ok m, []) := by
      simp [request_bot, hm, hfl]
    rw [heq]
    exact ⟨rfl, rfl, rfl, hcount, hleq ▸ hl, h0⟩
  | none =>
    have heq : request_bot db u1 platform nid infra newId true true =
        ({ db with links := db.links ++ [{ user_id := u1, meeting_id := m.id }] },
          .ok m, []) := by
      simp [request_bot, hm, hfl]
    rw [heq]
    refine ⟨rfl, rfl, rfl, hcount, ?_, ?_⟩
    · exact List.mem_append.mpr (Or.inr (List.mem_singleton.mpr rfl))
    · exact List.mem_append.mpr (Or.inl h0)

/-- Witness for C2: user 2 requests the fixture meeting already requested by
user 1. -/
theorem request_bot_existing_witness :
    (request_bot dbW 2 "google_meet" "abc-123" (.ok (some 9)) 5 true true).2.2 = [] ∧
    (request_bot dbW 2 "google_meet" "abc-123" (.ok (some 9)) 5 true true).2.1 = .ok mW ∧
    (request_bot dbW 2 "google_meet" "abc-123" (.ok (some 9)) 5 true true).1.meetings =
      dbW.meetings ∧
    countKey (request_bot dbW 2 "google_meet" "abc-123" (.ok (some 9)) 5 true true).1
      "google_meet" "abc-123" = 1 ∧
    ({ user_id := 2, meeting_id := mW.id } : UserMeeting) ∈
      (request_bot dbW 2 "google_meet" "abc-123" (.ok (some 9)) 5 true true).1.links ∧
    ({ user_id := 1, meeting_id := mW.id } : UserMeeting) ∈
      (request_bot dbW 2 "google_meet" "abc-123" (.ok (some 9)) 5 true true).1.links :=
  request_bot_existing dbW 1 2 "google_meet" "abc-123" mW (.ok (some 9)) 5
    (by decide) (by decide) (by decide)

/-- C3: the link-ensuring step is idempotent: two sequential `request_bot`
calls by the same user for the same registered meeting leave exactly one
linkage row for the pair, and the second call succeeds (returns the meeting,
no error). -/
theorem ensure_link_idempotent (db : DB) (u : Nat) (platform nid : String) (m : Meeting)
    (infra1 infra2 : Except String (Option Nat)) (id1 id2 : Nat)
    (hm : findMeeting db platform nid = some m)
    (h0 : countLink db u m.id = 0) :
    countLink (request_bot (request_bot db u platform nid infra1 id1 true true).1
      u platform nid infra2 id2 true true).1 u m.id = 1 ∧
    (request_bot (request_bot db u platform nid infra1 id1 true true).1
      u platform nid infra2 id2 true true).2.1 = .ok m := by
  have hfl1 : findLink db u m.id = none := findLink_eq_none_of_countLink_zero h0
  have heq1 : request_bot db u platform nid infra1 id1 true true =
      ({ db with links := db.links ++ [{ user_id := u, meeting_id := m.id }] },
        .ok m, []) := by
    simp [request_bot, hm, hfl1]
  rw [heq1]
  have hm1 : findMeeting
      { db with links := db.links ++ [{ user_id := u, meeting_id := m.id }] } platform nid =
      some m := hm
  have hfl2 : findLink
      { db with links := db.links ++ [{ user_id := u, meeting_id := m.id }] } u m.id =
      some { user_id := u, meeting_id := m.id } := by
    unfold findLink at hfl1 ⊢
    rw [List.find?_append, hfl1]
    simp
  have heq2 : request_bot
      { db with links := db.links ++ [{ user_id := u, meeting_id := m.id }] }
      u platform nid infra2 id2 true true =
      ({ db with links := db.links ++ [{ user_id := u, meeting_id := m.id }] },
        .ok m, []) := by
    simp [request_bot, hm1, hfl2]
  rw [heq2]
  unfold countLink at h0 ⊢
  refine ⟨?_, rfl⟩
  rw [List.filter_append, List.length_append, h0]
  simp

/-- Witness for C3: user 2 requests the fixture meeting twice in a row. -/
theorem ensure_link_idempotent_witness :
    countLink (request_bot (request_bot dbW 2 "google_meet" "abc-123" (.ok (some 9)) 5
      true true).1 2 "google_meet" "abc-123" (.ok (some 9)) 6 true true).1 2 mW.id = 1 ∧
    (request_bot (request_bot dbW 2 "google_meet" "abc-123" (.ok (some 9)) 5 true true).1
      2 "google_meet" "abc-123" (.ok (some 9)) 6 true true).2.1 = .ok mW :=
  ensure_link_idempotent dbW 2 "google_meet" "abc-123" mW (.ok (some 9)) (.ok (some 9)) 5 6
    (by decide) (by decide)

/-- C6: for an archived meeting (is_live not set to true), `get_transcript`
issues no upstream call and serves the persisted segments sorted in ascending
`start_time` order — sortedness plus being a permutation of the stored rows,
independently of insertion order. -/
theorem get_transcript_archived_sorted (db : DB) (u : Nat) (platform nid : String)
    (m : Meeting) (d : MeetingData) (live : Except String (List SegmentIn))
    (hm : authorizedMeeting db u platform nid = some m)
    (hd : m.data = some d)
    (hlive : d.is_live.getD false = false) :
    (get_transcript db u platform nid live).2 = [] ∧
    ∃ segs, (get_transcript db u platform nid live).1 = .cached segs ∧
      List.Sorted byStartTime segs ∧ segs.Perm (segmentsFor db m.id) := by
  have heq : get_transcript db u platform nid live =
      (.cached (List.insertionSort byStartTime (segmentsFor db m.id)), []) := by
    simp [get_transcript, hm, hd, hlive]
  rw [heq]
  exact ⟨rfl, List.insertionSort byStartTime (segmentsFor db m.id), rfl,
    List.sorted_insertionSort byStartTime _, List.perm_insertionSort byStartTime _⟩

/-- Witness for C6 at the fixture: the archived meeting's segments were
inserted as `[start 5, start 1]` and come back sorted. -/
theorem get_transcript_archived_sorted_witness :
    (get_transcript dbA 1 "google_meet" "abc-123" (.error "down")).2 = [] ∧
    ∃ segs, (get_transcript dbA 1 "google_meet" "abc-123" (.error "down")).1 =
        .cached segs ∧
      List.Sorted byStartTime segs ∧ segs.Perm (segmentsFor dbA mA.id) :=
  get_transcript_archived_sorted dbA 1 "google_meet" "abc-123" mA
    { is_live := some false, transcript_cached := some true, infra_meeting_id := some 7 }
    (.error "down") (by decide) (by decide) (by decide)

/-- C7: a user with no linkage row for a meeting gets `notFound` from
`get_transcript` with no transcript data and no upstream call — the very same
outcome as querying a database where no meeting with that key exists at all,
so existence is not leaked. -/
theorem get_transcript_unauthorized (db db2 : DB) (u : Nat) (platform nid : String)
    (live live2 : Except String (List SegmentIn))
    (hnolink : ∀ m ∈ db.meetings,
      (m.platform == platform && m.platform_specific_id == nid) = true →
      findLink db u m.id = none)
    (hnomeeting : findMeeting db2 platform nid = none) :
    get_transcript db u platform nid live = (.notFound, []) ∧
    get_transcript db2 u platform nid live2 = (.notFound, []) := by
  have hauth : authorizedMeeting db u platform nid = none := by
    unfold authorizedMeeting
    rw [List.find?_eq_none]
    intro a ha hpa
    rw [Bool.and_eq_true] at hpa
    have hnone := hnolink a ha hpa.1
    rw [hnone] at hpa
    exact absurd hpa.2 (by simp)
  have hauth2 : authorizedMeeting db2 u platform nid = none := by
    have hno := List.find?_eq_none.mp hnomeeting
    unfold authorizedMeeting
    rw [List.find?_eq_none]
    intro a ha hpa
    rw [Bool.and_eq_true] at hpa
    exact absurd hpa.1 (hno a ha)
  constructor
  · simp [get_transcript, hauth]
  · simp [get_transcript, hauth2]

/-- Witness for C7: user 2 never linked to the fixture meeting in `dbW`, and
`dbU` holds no meeting for the key; both queries answer `notFound`. -/
theorem get_transcript_unauthorized_witness :
    get_transcript dbW 2 "google_meet" "abc-123" (.ok [segW]) = (.notFound, []) ∧
    get_transcript dbU 2 "google_meet" "abc-123" (.ok [segW]) = (.notFound, []) :=
  get_transcript_unauthorized dbW dbU 2 "google_meet" "abc-123" (.ok [segW]) (.ok [segW])
    (by decide) (by decide)

/-- C9: finalize has no re-delivery guard: a second webhook delivery for an
already finalized meeting (bag archived, `transcript_cached = true`) appends
the full upstream segment list again — every segment is stored twice — and
succeeds rather than being a no-op. -/
theorem finalize_no_dedup (db : DB) (platform nid : String) (m : Meeting)
    (segs : List SegmentIn)
    (hm : findMeeting db platform nid = some m) :
    (handle_webhook db platform nid (.ok segs) true (.ok ())).1.segments =
      db.segments ++ segs.map (segRow m.id) ∧
    { m with data := some (archiveData m.data) } ∈
      (handle_webhook db platform nid (.ok segs) true (.ok ())).1.meetings ∧
    (archiveData m.data).transcript_cached = some true ∧
    (handle_webhook (handle_webhook db platform nid (.ok segs) true (.ok ())).1
        platform nid (.ok segs) true (.ok ())).1.segments =
      db.segments ++ segs.map (segRow m.id) ++ segs.map (segRow m.id) ∧
    (handle_webhook (handle_webhook db platform nid (.ok segs) true (.ok ())).1
        platform nid (.ok segs) true (.ok ())).2.1 = .ok := by
  have heq1 : handle_webhook db platform nid (.ok segs) true (.ok ()) =
      (applyFinalize db m.id segs, .ok,
        [.getTranscriptCall platform nid, .deleteMeetingCall platform nid]) := by
    simp [handle_webhook, hm]
  have hm2 := findMeeting_applyFinalize hm segs
  have heq2 : handle_webhook (applyFinalize db m.id segs) platform nid (.ok segs) true
      (.ok ()) =
      (applyFinalize (applyFinalize db m.id segs) m.id segs, .ok,
        [.getTranscriptCall platform nid, .deleteMeetingCall platform nid]) := by
    simp [handle_webhook, hm2]
  have hmem : { m with data := some (archiveData m.data) } ∈
      (applyFinalize db m.id segs).meetings := by
    unfold applyFinalize
    have hm' : m ∈ db.meetings := (findMeeting_mem hm).1
    have hmapped := List.mem_map_of_mem
      (fun x => if x.id = m.id then { x with data := some (archiveData x.data) } else x) hm'
    simpa using hmapped
  rw [heq1, heq2]
  exact ⟨rfl, hmem, rfl, rfl, rfl⟩

/-- Witness for C9: replaying the fixture webhook duplicates `segW`. -/
theorem finalize_no_dedup_witness :
    (handle_webhook dbW "google_meet" "abc-123" (.ok [segW]) true (.ok ())).1.segments =
      dbW.segments ++ [segW].map (segRow mW.id) ∧
    { mW with data := some (archiveData mW.data) } ∈
      (handle_webhook dbW "google_meet" "abc-123" (.ok [segW]) true (.ok ())).1.meetings ∧
    (archiveData mW.data).transcript_cached = some true ∧
    (handle_webhook (handle_webhook dbW "google_meet" "abc-123" (.ok [segW]) true
        (.ok ())).1 "google_meet" "abc-123" (.ok [segW]) true (.ok ())).1.segments =
      dbW.segments ++ [segW].map (segRow mW.id) ++ [segW].map (segRow mW.id) ∧
    (handle_webhook (handle_webhook dbW "google_meet" "abc-123" (.ok [segW]) true
        (.ok ())).1 "google_meet" "abc-123" (.ok [segW]) true (.ok ())).2.1 = .ok :=
  finalize_no_dedup dbW "google_meet" "abc-123" mW [segW] (by decide)

/-- C4 counterexample: when only the post-commit cleanup call fails, the
webhook handler does surface an error to the caller — the `delete_meeting`
call sits inside the `try` block, so its failure is caught and re-raised as a
502 rather than the claimed log-only outcome. -/
theorem finalize_cleanup_failure_cx :
    (handle_webhook dbW "google_meet" "abc-123" (.ok [segW]) true (.error "boom")).2.1 =
      .infraError "boom" ∧
    WebhookResult.infraError "boom" ≠ WebhookResult.ok := by
  exact ⟨by decide, by decide⟩

/-- C4 (amended): when the archival transaction has committed and only the
upstream cleanup call fails, the caller receives a 502 infra error (the
failure is surfaced, not merely logged), while the already-committed archival
state — segments persisted, bag archived — remains fully intact. -/
theorem finalize_cleanup_failure (db : DB) (platform nid : String) (m : Meeting)
    (segs : List SegmentIn) (e : String)
    (hm : findMeeting db platform nid = some m) :
    handle_webhook db platform nid (.ok segs) true (.error e) =
      (applyFinalize db m.id segs, .infraError e,
        [.getTranscriptCall platform nid, .deleteMeetingCall platform nid]) ∧
    (applyFinalize db m.id segs).segments = db.segments ++ segs.map (segRow m.id) ∧
    { m with data := some (archiveData m.data) } ∈ (applyFinalize db m.id segs).meetings ∧
    (archiveData m.data).is_live = some false ∧
    (archiveData m.data).transcript_cached = some true := by
  have hmem : { m with data := some (archiveData m.data) } ∈
      (applyFinalize db m.id segs).meetings := by
    unfold applyFinalize
    have hm' : m ∈ db.meetings := (findMeeting_mem hm).1
    have hmapped := List.mem_map_of_mem
      (fun x => if x.id = m.id then { x with data := some (archiveData x.data) } else x) hm'
    simpa using hmapped
  refine ⟨?_, rfl, hmem, rfl, rfl⟩
  simp [handle_webhook, hm]

/-- Witness for the amended C4 at the fixture database. -/
theorem finalize_cleanup_failure_witness :
    handle_webhook dbW "google_meet" "abc-123" (.ok [segW]) true (.error "boom") =
      (applyFinalize dbW mW.id [segW], .infraError "boom",
        [.getTranscriptCall "google_meet" "abc-123",
          .deleteMeetingCall "google_meet" "abc-123"]) ∧
    (applyFinalize dbW mW.id [segW]).segments = dbW.segments ++ [segW].map (segRow mW.id) ∧
    { mW with data := some (archiveData mW.data) } ∈
      (applyFinalize dbW mW.id [segW]).meetings ∧
    (archiveData mW.data).is_live = some false ∧
    (archiveData mW.data).transcript_cached = some true :=
  finalize_cleanup_failure dbW "google_meet" "abc-123" mW [segW] "boom" (by decide)

/-- Every position of the token alphabet holds an alphanumeric character. -/
theorem token_char_alphanum (k : Nat) :
    (token_alphabet.getD (k % token_alphabet.length) 'a').isAlphanum = true := by
  have hpos : 0 < token_alphabet.length := by decide
  have hk : k % token_alphabet.length < token_alphabet.length := Nat.mod_lt _ hpos
  rw [List.getD_eq_getElem _ _ hk]
  have hall : ∀ c ∈ token_alphabet, c.isAlphanum = true := by decide
  exact hall _ (token_alphabet.getElem_mem hk)

/-- `generate_secure_token` yields exactly `n` characters. -/
theorem generate_secure_token_length (pick : Nat → Nat) (n : Nat) :
    (generate_secure_token pick n).length = n := by
  simp [generate_secure_token, String.length]

/-- C8 counterexample: issuing a token for a user id with no user row does not
fail with `notFound` — the handler has no existence check or error
translation, so the foreign-key violation surfaces as a raw 500 while the
store is left unchanged. -/
theorem create_token_missing_user_cx :
    (create_token_for_user dbU 5 pickW 1).2 = .serverError ∧
    TokenResult.serverError ≠ TokenResult.notFound ∧
    (create_token_for_user dbU 5 pickW 1).1 = dbU := by
  refine ⟨by decide, by decide, by decide⟩

/-- C8 (amended): `create_token_for_user` surfaces a raw constraint error
(500), not `notFound`, when the user id has no user row, and leaves the store
unchanged; when the user exists it persists one new token bound to that user
whose opaque string is exactly 40 alphanumeric characters. -/
theorem create_token_fk (db : DB) (uid : Nat) (pick : Nat → Nat) (newId : Nat) :
    (uid ∉ db.users → create_token_for_user db uid pick newId = (db, .serverError)) ∧
    (uid ∈ db.users →
      create_token_for_user db uid pick newId =
        ({ db with tokens := db.tokens ++
            [{ id := newId, token := generate_secure_token pick 40, user_id := uid }] },
          .created { id := newId, token := generate_secure_token pick 40, user_id := uid }) ∧
      (generate_secure_token pick 40).length = 40 ∧
      ∀ c ∈ (generate_secure_token pick 40).toList, c.isAlphanum = true) := by
  constructor
  · intro hnot
    simp [create_token_for_user, hnot]
  · intro hmem
    refine ⟨by simp [create_token_for_user, hmem], generate_secure_token_length pick 40, ?_⟩
    intro c hcmem
    simp only [generate_secure_token, String.toList, List.mem_map, List.mem_range] at hcmem
    obtain ⟨i, _, rfl⟩ := hcmem
    exact token_char_alphanum (pick i)

/-- Witness for the amended C8: user 1 exists in `dbU`, so a 40-character
alphanumeric token is persisted for it. -/
theorem create_token_fk_witness :
    create_token_for_user dbU 1 pickW 1 =
      ({ dbU with tokens := dbU.tokens ++
          [{ id := 1, token := generate_secure_token pickW 40, user_id := 1 }] },
        .created { id := 1, token := generate_secure_token pickW 40, user_id := 1 }) ∧
    (generate_secure_token pickW 40).length = 40 ∧
    ∀ c ∈ (generate_secure_token pickW 40).toList, c.isAlphanum = true :=
  (create_token_fk dbU 1 pickW 1).2 (by decide)

end MeetingHub
